import Mathlib

/-!
Verification development for the electricityEstimator repository.

Shallow embedding of the core of the repository:
  * `update_csv_backlog`            — standalone/scripts/utils_data.py
  * `get_csv_time_window_and_freshness`, `run_update_once`
                                    — standalone/update_data.py
  * `fetch_price_data_window`       — standalone/scripts/getPriceData.py
  * `fetch_weather_data_window`     — standalone/scripts/getWeatherData.py
  * the persist step (`to_csv`)     — modelled as file-system operations
  * `build_df_model_from_csv` feature derivations and
    `build_next_24_features_from_df_model`
                                    — standalone/features.py

Timestamps are modelled as integers counting minutes (UTC); a pandas
DataFrame with a datetime index and one value column is modelled as a
`List (Int × Int)` of (timestamp, value) rows in frame order.
`DataFrame.sort_index` is modelled as a sort by timestamp
(`List.insertionSort`), `Index.duplicated(keep="last")` as
`dedupKeepLast`, and the retention filter `index >= max - days` as
`trimTail`.
-/

/-- A row of a single-column time-indexed frame: (timestamp in minutes, value). -/
abbrev Row := Int × Int

/-- Comparison used by `sort_index`: order rows by timestamp. -/
def rowLE (a b : Row) : Prop := a.1 ≤ b.1

/-- Strict timestamp order, used to state the ordering invariant. -/
def rowLT (a b : Row) : Prop := a.1 < b.1

instance : DecidableRel rowLE := fun a b => inferInstanceAs (Decidable (a.1 ≤ b.1))

instance : DecidableRel rowLT := fun a b => inferInstanceAs (Decidable (a.1 < b.1))

instance : IsTotal Row rowLE := ⟨fun a b => Int.le_total a.1 b.1⟩

instance : IsTrans Row rowLE := ⟨fun _ _ _ h h' => Int.le_trans h h'⟩

instance : IsAntisymm Row rowLT :=
  ⟨fun _ _ h h' => absurd (lt_trans h h') (lt_irrefl _)⟩

/-- `df.sort_index()`: sort rows ascending by timestamp. -/
def sortRows (l : List Row) : List Row := List.insertionSort rowLE l

/-- `l.any (timestamp = a)`: does some row of `l` carry timestamp `a`? -/
def hasKey (a : Int) (l : List Row) : Bool := l.any (fun y => decide (y.1 = a))

/-- `df[~df.index.duplicated(keep="last")]`: drop a row when a later row of
the frame has the same timestamp, keeping frame order otherwise. -/
def dedupKeepLast : List Row → List Row
  | [] => []
  | x :: xs => if hasKey x.1 xs then dedupKeepLast xs else x :: dedupKeepLast xs

/-- `Index.max()` over a list of integers (`none` on an empty frame, pandas `NaT`). -/
def listMax : List Int → Option Int
  | [] => none
  | a :: l => some (match listMax l with | none => a | some m => max a m)

/-- Largest timestamp of a frame. -/
def maxTs (l : List Row) : Option Int := listMax (l.map Prod.fst)

/-- `df_all[df_all.index >= df_all.index.max() - timedelta(days=days)]`:
keep rows whose timestamp is at least `max - days` (in minutes,
`days * 1440`).  On an empty frame the mask is empty and the frame is
returned unchanged. -/
def trimTail (days : Int) (l : List Row) : List Row :=
  match maxTs l with
  | none => l
  | some m => l.filter (fun r => decide (m - days * 1440 ≤ r.1))

/-- `utils_data.update_csv_backlog` (lines 29-60): sort the incoming batch,
load and sort the existing CSV when it exists (`old?`), concatenate
old-then-new, drop duplicate timestamps keeping the last occurrence, and
keep only the trailing `days_backlog` days.  The returned list is what
`to_csv` persists. -/
def update_csv_backlog (old? : Option (List Row)) (dfNew : List Row)
    (days_backlog : Int) : List Row :=
  let dfNewS := sortRows dfNew
  let dfAll :=
    match old? with
    | some dfOld => sortRows dfOld ++ dfNewS
    | none => dfNewS
  trimTail days_backlog (dedupKeepLast dfAll)


/-! ### Helper lemmas about the merge primitives -/

theorem hasKey_iff {a : Int} {l : List Row} :
    hasKey a l = true ↔ ∃ y ∈ l, y.1 = a := by
  simp [hasKey, List.any_eq_true]

theorem hasKey_cons {a : Int} {x : Row} {l : List Row} :
    hasKey a (x :: l) = (decide (x.1 = a) || hasKey a l) := by
  simp [hasKey]

theorem dedupKeepLast_sublist : ∀ l : List Row, List.Sublist (dedupKeepLast l) l
  | [] => List.Sublist.refl _
  | x :: xs => by
    by_cases h : hasKey x.1 xs = true
    · rw [dedupKeepLast, if_pos h]
      exact (dedupKeepLast_sublist xs).cons x
    · rw [dedupKeepLast, if_neg h]
      exact (dedupKeepLast_sublist xs).cons₂ x

theorem mem_of_mem_dedupKeepLast {y : Row} {l : List Row}
    (h : y ∈ dedupKeepLast l) : y ∈ l :=
  (dedupKeepLast_sublist l).subset h

theorem hasKey_dedupKeepLast (a : Int) :
    ∀ l : List Row, hasKey a (dedupKeepLast l) = hasKey a l
  | [] => rfl
  | x :: xs => by
    by_cases h : hasKey x.1 xs = true
    · rw [dedupKeepLast, if_pos h, hasKey_dedupKeepLast a xs, hasKey_cons]
      by_cases hx : x.1 = a
      · obtain ⟨z, hz, hzx⟩ := hasKey_iff.mp h
        have : hasKey a xs = true := hasKey_iff.mpr ⟨z, hz, by omega⟩
        simp [this]
      · simp [hx]
    · rw [dedupKeepLast, if_neg h, hasKey_cons, hasKey_cons,
        hasKey_dedupKeepLast a xs]

theorem dedupKeepLast_pairwise :
    ∀ l : List Row, (dedupKeepLast l).Pairwise (fun a b => a.1 ≠ b.1)
  | [] => List.Pairwise.nil
  | x :: xs => by
    by_cases h : hasKey x.1 xs = true
    · rw [dedupKeepLast, if_pos h]
      exact dedupKeepLast_pairwise xs
    · rw [dedupKeepLast, if_neg h]
      refine List.Pairwise.cons (fun y hy hxy => ?_) (dedupKeepLast_pairwise xs)
      exact h (hasKey_iff.mpr ⟨y, mem_of_mem_dedupKeepLast hy, hxy.symm⟩)

theorem dedupKeepLast_eq_self {l : List Row}
    (h : l.Pairwise (fun a b => a.1 ≠ b.1)) : dedupKeepLast l = l := by
  induction l with
  | nil => rfl
  | cons x xs ih =>
    rw [List.pairwise_cons] at h
    have hx : ¬ hasKey x.1 xs = true := by
      intro hc
      obtain ⟨y, hy, hyx⟩ := hasKey_iff.mp hc
      exact h.1 y hy hyx.symm
    rw [dedupKeepLast, if_neg hx, ih h.2]

theorem dedupKeepLast_eq_nil {l : List Row} :
    dedupKeepLast l = [] ↔ l = [] := by
  induction l with
  | nil => simp [dedupKeepLast]
  | cons x xs ih =>
    by_cases h : hasKey x.1 xs = true
    · rw [dedupKeepLast, if_pos h]
      constructor
      · intro hnil
        obtain ⟨y, hy, _⟩ := hasKey_iff.mp h
        rw [ih.mp hnil] at hy
        cases hy
      · intro hc
        cases hc
    · rw [dedupKeepLast, if_neg h]
      simp

theorem dedupKeepLast_append : ∀ l₁ l₂ : List Row,
    dedupKeepLast (l₁ ++ l₂) =
      dedupKeepLast (l₁.filter (fun x => !hasKey x.1 l₂)) ++ dedupKeepLast l₂
  | [], l₂ => by simp [dedupKeepLast]
  | x :: l₁, l₂ => by
    have hsplit : hasKey x.1 (l₁ ++ l₂) = (hasKey x.1 l₁ || hasKey x.1 l₂) := by
      simp [hasKey, List.any_append]
    by_cases h2 : hasKey x.1 l₂ = true
    · rw [List.cons_append, dedupKeepLast, hsplit, h2, Bool.or_true, if_pos rfl,
        List.filter_cons, h2]
      simp only [Bool.not_true, Bool.false_eq_true, if_neg (by simp : ¬ ((false : Bool) = true))]
      exact dedupKeepLast_append l₁ l₂
    · by_cases h1 : hasKey x.1 l₁ = true
      · have hkeep : (!hasKey x.1 l₂) = true := by simp [h2]
        rw [List.cons_append, dedupKeepLast, hsplit, h1, Bool.true_or, if_pos rfl,
          List.filter_cons, hkeep, if_pos rfl, dedupKeepLast]
        have hdup : hasKey x.1 (l₁.filter (fun x' => !hasKey x'.1 l₂)) = true := by
          obtain ⟨y, hy, hyx⟩ := hasKey_iff.mp h1
          refine hasKey_iff.mpr ⟨y, List.mem_filter.mpr ⟨hy, ?_⟩, hyx⟩
          rw [hyx]
          simp [h2]
        rw [if_pos hdup]
        exact dedupKeepLast_append l₁ l₂
      · have hkeep : (!hasKey x.1 l₂) = true := by simp [h2]
        rw [List.cons_append, dedupKeepLast, hsplit]
        have hb : (hasKey x.1 l₁ || hasKey x.1 l₂) = false := by
          simp [Bool.or_eq_false_iff]
          exact ⟨by simpa using h1, by simpa using h2⟩
        rw [hb, if_neg (by simp), List.filter_cons, hkeep, if_pos rfl, dedupKeepLast]
        have hnodup : ¬ hasKey x.1 (l₁.filter (fun x' => !hasKey x'.1 l₂)) = true := by
          intro hc
          obtain ⟨y, hy, hyx⟩ := hasKey_iff.mp hc
          exact h1 (hasKey_iff.mpr ⟨y, (List.mem_filter.mp hy).1, hyx⟩)
        rw [if_neg hnodup, List.cons_append]
        rw [dedupKeepLast_append l₁ l₂]

theorem listMax_eq_none {l : List Int} : listMax l = none ↔ l = [] := by
  cases l <;> simp [listMax]

theorem listMax_mem {l : List Int} {m : Int} (h : listMax l = some m) : m ∈ l := by
  induction l generalizing m with
  | nil => simp [listMax] at h
  | cons a l ih =>
    rw [listMax] at h
    cases hl : listMax l with
    | none =>
      rw [hl] at h
      simp only [Option.some.injEq] at h
      simp [← h]
    | some m' =>
      rw [hl] at h
      simp only [Option.some.injEq] at h
      rcases max_choice a m' with hc | hc <;> rw [hc] at h
      · simp [← h]
      · exact List.mem_cons_of_mem _ (ih (by rw [hl, h]))

theorem le_listMax {l : List Int} {a m : Int} (ha : a ∈ l)
    (h : listMax l = some m) : a ≤ m := by
  induction l generalizing m with
  | nil => cases ha
  | cons b l ih =>
    rw [listMax] at h
    rcases List.mem_cons.mp ha with rfl | ha'
    · cases hl : listMax l with
      | none =>
        rw [hl] at h
        simp only [Option.some.injEq] at h
        omega
      | some m' =>
        rw [hl] at h
        simp only [Option.some.injEq] at h
        subst h
        exact le_max_left _ _
    · cases hl : listMax l with
      | none =>
        rw [listMax_eq_none.mp hl] at ha'
        cases ha'
      | some m' =>
        rw [hl] at h
        simp only [Option.some.injEq] at h
        subst h
        exact le_trans (ih ha' hl) (le_max_right _ _)

theorem listMax_eq_some_iff {l : List Int} {m : Int} :
    listMax l = some m ↔ m ∈ l ∧ ∀ a ∈ l, a ≤ m := by
  constructor
  · exact fun h => ⟨listMax_mem h, fun a ha => le_listMax ha h⟩
  · rintro ⟨hm, hb⟩
    cases hl : listMax l with
    | none =>
      rw [listMax_eq_none.mp hl] at hm
      cases hm
    | some m' =>
      have h1 := le_listMax hm hl
      have h2 := hb _ (listMax_mem hl)
      rw [le_antisymm h1 h2]

theorem maxTs_eq_none {l : List Row} : maxTs l = none ↔ l = [] := by
  unfold maxTs
  rw [listMax_eq_none]
  simp

theorem maxTs_eq_some_iff {l : List Row} {m : Int} :
    maxTs l = some m ↔ (∃ r ∈ l, r.1 = m) ∧ ∀ r ∈ l, r.1 ≤ m := by
  unfold maxTs
  rw [listMax_eq_some_iff]
  constructor
  · rintro ⟨hm, hb⟩
    obtain ⟨r, hr, hrm⟩ := List.mem_map.mp hm
    exact ⟨⟨r, hr, hrm⟩, fun r' hr' => hb _ (List.mem_map.mpr ⟨r', hr', rfl⟩)⟩
  · rintro ⟨⟨r, hr, hrm⟩, hb⟩
    refine ⟨List.mem_map.mpr ⟨r, hr, hrm⟩, ?_⟩
    intro a ha
    obtain ⟨r', hr', rfl⟩ := List.mem_map.mp ha
    exact hb r' hr'

theorem maxTs_dedupKeepLast (l : List Row) :
    maxTs (dedupKeepLast l) = maxTs l := by
  cases h : maxTs l with
  | none =>
    rw [maxTs_eq_none.mp h]
    rfl
  | some m =>
    obtain ⟨⟨r, hr, hrm⟩, hb⟩ := maxTs_eq_some_iff.mp h
    refine maxTs_eq_some_iff.mpr ⟨?_, ?_⟩
    · have hk : hasKey m l = true := hasKey_iff.mpr ⟨r, hr, hrm⟩
      rw [← hasKey_dedupKeepLast] at hk
      exact hasKey_iff.mp hk
    · exact fun r' hr' => hb r' (mem_of_mem_dedupKeepLast hr')

theorem trimTail_pairwise {R : Row → Row → Prop} {d : Int} {l : List Row}
    (h : l.Pairwise R) : (trimTail d l).Pairwise R := by
  unfold trimTail
  cases maxTs l with
  | none => exact h
  | some m => exact h.filter _

theorem update_csv_backlog_some (old new : List Row) (days : Int) :
    update_csv_backlog (some old) new days =
      trimTail days (dedupKeepLast (sortRows old ++ sortRows new)) := rfl

theorem sortRows_sorted (l : List Row) : (sortRows l).Pairwise rowLE :=
  List.sorted_insertionSort rowLE l

theorem mem_sortRows {x : Row} {l : List Row} : x ∈ sortRows l ↔ x ∈ l :=
  (List.perm_insertionSort rowLE l).mem_iff

/-- C1 counterexample: an incoming row whose timestamp lies strictly between
two retained timestamps of the existing CSV is appended after them;
`update_csv_backlog` never re-sorts the concatenated frame, so the persisted
series is not ascending. -/
theorem C1_cex_merge_not_sorted :
    update_csv_backlog (some [(0, 0), (2, 0)]) [(1, 0)] 14 = [(0, 0), (2, 0), (1, 0)] ∧
    ¬ (update_csv_backlog (some [(0, 0), (2, 0)]) [(1, 0)] 14).Pairwise rowLT := by
  constructor
  · decide
  · decide

/-- C1 (amended): the merged-and-trimmed series never contains two rows with
the same timestamp; and it is strictly ascending by timestamp whenever every
incoming timestamp is at least every existing timestamp (the gap-fetch
situation) — but not in general, since the code sorts the two frames only
individually and never re-sorts their concatenation. -/
theorem C1_merge_nodup_and_conditionally_sorted (old new : List Row) (days : Int) :
    (update_csv_backlog (some old) new days).Pairwise (fun a b => a.1 ≠ b.1) ∧
    ((∀ a ∈ old, ∀ b ∈ new, a.1 ≤ b.1) →
      (update_csv_backlog (some old) new days).Pairwise rowLT) := by
  constructor
  · rw [update_csv_backlog_some]
    exact trimTail_pairwise (dedupKeepLast_pairwise _)
  · intro hle
    rw [update_csv_backlog_some]
    apply trimTail_pairwise
    have hsorted : (sortRows old ++ sortRows new).Pairwise rowLE := by
      rw [List.pairwise_append]
      refine ⟨sortRows_sorted old, sortRows_sorted new, ?_⟩
      intro a ha b hb
      exact hle a (mem_sortRows.mp ha) b (mem_sortRows.mp hb)
    have h1 : (dedupKeepLast (sortRows old ++ sortRows new)).Pairwise rowLE :=
      hsorted.sublist (dedupKeepLast_sublist _)
    have h2 := dedupKeepLast_pairwise (sortRows old ++ sortRows new)
    exact (h1.and h2).imp fun h => lt_of_le_of_ne h.1 h.2

theorem C1_merge_nodup_and_conditionally_sorted_witness :
    (update_csv_backlog (some [(0, 1)]) [(15, 2)] 14).Pairwise rowLT :=
  (C1_merge_nodup_and_conditionally_sorted [(0, 1)] [(15, 2)] 14).2 (by decide)

/-- C2: after a merge-and-trim, every surviving record's timestamp is at
least the maximum timestamp of the result minus `days_backlog` days. -/
theorem C2_merge_retention (old new : List Row) (days : Int) :
    ∀ r ∈ update_csv_backlog (some old) new days,
      ∀ m, maxTs (update_csv_backlog (some old) new days) = some m →
        m - days * 1440 ≤ r.1 := by
  intro r hr m hm
  rw [update_csv_backlog_some] at hr hm
  unfold trimTail at hr hm
  cases hmax : maxTs (dedupKeepLast (sortRows old ++ sortRows new)) with
  | none =>
    rw [hmax] at hr
    rw [maxTs_eq_none.mp hmax] at hr
    cases hr
  | some M =>
    rw [hmax] at hr hm
    have h2 : M - days * 1440 ≤ r.1 := of_decide_eq_true (List.mem_filter.mp hr).2
    obtain ⟨⟨r', hr', hr'm⟩, _⟩ := maxTs_eq_some_iff.mp hm
    have h3 : r'.1 ≤ M :=
      (maxTs_eq_some_iff.mp hmax).2 r' (List.mem_filter.mp hr').1
    omega

theorem C2_merge_retention_witness :
    ((0 : Int), (1 : Int)) ∈ update_csv_backlog (some [(0, 1)]) [(15, 2)] 14 ∧
    maxTs (update_csv_backlog (some [(0, 1)]) [(15, 2)] 14) = some 15 ∧
    (15 : Int) - 14 * 1440 ≤ (0 : Int) :=
  ⟨by decide, by decide,
    C2_merge_retention [(0, 1)] [(15, 2)] 14 (0, 1) (by decide) 15 (by decide)⟩

theorem sortRows_perm (l : List Row) : List.Perm (sortRows l) l :=
  List.perm_insertionSort rowLE l

theorem trimTail_eq_filter {days : Int} {l : List Row} {m : Int}
    (h : maxTs l = some m) :
    trimTail days l = l.filter (fun r => decide (m - days * 1440 ≤ r.1)) := by
  rw [trimTail, h]

theorem strict_of_le_ne {l : List Row} (h1 : l.Pairwise rowLE)
    (h2 : l.Pairwise (fun a b => a.1 ≠ b.1)) : l.Pairwise rowLT :=
  (h1.and h2).imp fun h => lt_of_le_of_ne h.1 h.2

theorem eq_of_perm_of_strictSorted {l₁ l₂ : List Row} (hp : List.Perm l₁ l₂)
    (h₁ : l₁.Pairwise rowLT) (h₂ : l₂.Pairwise rowLT) : l₁ = l₂ :=
  List.eq_of_perm_of_sorted hp h₁ h₂

/-- C3: merging the same batch a second time does not change the persisted
series, and of two overlapping batches the later-inserted value wins
(pandas `keep="last"`). -/
theorem C3_merge_idempotent_newest_wins (old new : List Row) (days : Int)
    (hd : 0 ≤ days) :
    update_csv_backlog (some (update_csv_backlog (some old) new days)) new days
        = update_csv_backlog (some old) new days ∧
    ∀ v₁ v₂ : Int,
      update_csv_backlog (some (update_csv_backlog (some []) [(0, v₁)] 14))
          [(0, v₂)] 14 = [(0, v₂)] := by
  refine ⟨?_, fun v₁ v₂ => rfl⟩
  rw [update_csv_backlog_some, update_csv_backlog_some]
  have hsplit := dedupKeepLast_append (sortRows old) (sortRows new)
  set SO := sortRows old
  set SN := sortRows new
  set F := SO.filter (fun x => !hasKey x.1 SN) with hF
  set DF := dedupKeepLast F with hDF
  set DN := dedupKeepLast SN with hDN
  rw [hsplit]
  -- structural facts about the two halves
  have hFsorted : F.Pairwise rowLE := (sortRows_sorted old).filter _
  have hDFsorted : DF.Pairwise rowLE := hFsorted.sublist (dedupKeepLast_sublist F)
  have hDFne : DF.Pairwise (fun a b => a.1 ≠ b.1) := dedupKeepLast_pairwise F
  have hDNne : DN.Pairwise (fun a b => a.1 ≠ b.1) := dedupKeepLast_pairwise SN
  have hallne : (DF ++ DN).Pairwise (fun a b => a.1 ≠ b.1) := by
    rw [← hsplit]
    exact dedupKeepLast_pairwise _
  cases hmax : maxTs (DF ++ DN) with
  | none =>
    -- both halves are empty, so everything collapses to the empty frame
    have hnil : DF ++ DN = [] := maxTs_eq_none.mp hmax
    have hDFnil : DF = [] := by
      cases hDFe : DF with
      | nil => rfl
      | cons a l => rw [hDFe] at hnil; cases hnil
    have hDNnil : DN = [] := by
      rw [hDFnil] at hnil
      simpa using hnil
    have hSNnil : SN = [] := dedupKeepLast_eq_nil.mp (hDN ▸ hDNnil)
    rw [hnil, hSNnil]
    rfl
  | some m =>
    obtain ⟨⟨rm, hrm, hrmm⟩, hbound⟩ := maxTs_eq_some_iff.mp hmax
    have hD : (0 : Int) ≤ days * 1440 := by positivity
    -- the trimmed series splits into an old part A and a new part N
    have hR : trimTail days (DF ++ DN)
        = DF.filter (fun r => decide (m - days * 1440 ≤ r.1))
          ++ DN.filter (fun r => decide (m - days * 1440 ≤ r.1)) := by
      rw [trimTail_eq_filter hmax, List.filter_append]
    set P : Row → Bool := fun r => decide (m - days * 1440 ≤ r.1) with hP
    set A := DF.filter P with hA
    set N := DN.filter P with hN
    set R := trimTail days (DF ++ DN) with hRdef
    have hRsplit : R = A ++ N := hR
    have hAsorted : A.Pairwise rowLE := hDFsorted.filter _
    have hAne : A.Pairwise (fun a b => a.1 ≠ b.1) := hDFne.filter _
    have hRne : R.Pairwise (fun a b => a.1 ≠ b.1) := trimTail_pairwise hallne
    have hAnk : ∀ x ∈ A, hasKey x.1 SN = false := by
      intro x hx
      have hxF : x ∈ F := mem_of_mem_dedupKeepLast (List.mem_filter.mp hx).1
      have := (List.mem_filter.mp hxF).2
      simpa using this
    have hNk : ∀ x ∈ N, hasKey x.1 SN = true := by
      intro x hx
      have hxSN : x ∈ SN := mem_of_mem_dedupKeepLast (List.mem_filter.mp hx).1
      exact hasKey_iff.mpr ⟨x, hxSN, rfl⟩
    -- the second merge deduplicates to A ++ DN
    rw [dedupKeepLast_append (sortRows R) SN]
    have hRfilter : R.filter (fun x => !hasKey x.1 SN) = A := by
      rw [hRsplit, List.filter_append]
      have h1 : A.filter (fun x => !hasKey x.1 SN) = A :=
        List.filter_eq_self.mpr fun x hx => by rw [hAnk x hx]; rfl
      have h2 : N.filter (fun x => !hasKey x.1 SN) = [] :=
        List.filter_eq_nil_iff.mpr fun x hx => by rw [hNk x hx]; simp
      rw [h1, h2, List.append_nil]
    have hFRperm : List.Perm ((sortRows R).filter (fun x => !hasKey x.1 SN)) A := by
      rw [← hRfilter]
      exact (sortRows_perm R).filter _
    have hFRsorted : ((sortRows R).filter (fun x => !hasKey x.1 SN)).Pairwise rowLE :=
      (sortRows_sorted R).filter _
    have hFRne : ((sortRows R).filter (fun x => !hasKey x.1 SN)).Pairwise
        (fun a b => a.1 ≠ b.1) := by
      refine List.Pairwise.filter _ ?_
      exact ((sortRows_perm R).pairwise_iff (fun h => h.symm)).mpr hRne
    have hFA : (sortRows R).filter (fun x => !hasKey x.1 SN) = A :=
      eq_of_perm_of_strictSorted hFRperm
        (strict_of_le_ne hFRsorted hFRne) (strict_of_le_ne hAsorted hAne)
    rw [hFA, dedupKeepLast_eq_self hAne]
    -- the maximum timestamp is unchanged
    have hmax' : maxTs (A ++ DN) = some m := by
      refine maxTs_eq_some_iff.mpr ⟨?_, ?_⟩
      · rcases List.mem_append.mp hrm with hDFm | hDNm
        · refine ⟨rm, List.mem_append_left _ ?_, hrmm⟩
          rw [hA]
          refine List.mem_filter.mpr ⟨hDFm, ?_⟩
          rw [hP]
          simp only [decide_eq_true_eq]
          omega
        · exact ⟨rm, List.mem_append_right _ hDNm, hrmm⟩
      · intro r hr
        rcases List.mem_append.mp hr with hrA | hrDN
        · exact hbound r (List.mem_append_left _ (List.mem_filter.mp hrA).1)
        · exact hbound r (List.mem_append_right _ hrDN)
    -- trimming a second time with the same cutoff changes nothing
    rw [trimTail_eq_filter hmax', List.filter_append]
    have hAfix : A.filter P = A :=
      List.filter_eq_self.mpr fun x hx => (List.mem_filter.mp hx).2
    rw [hAfix]
    exact hRsplit.symm

theorem C3_merge_idempotent_newest_wins_witness :
    update_csv_backlog (some (update_csv_backlog (some [(0, 1)]) [(2, 3)] 14))
        [(2, 3)] 14 = update_csv_backlog (some [(0, 1)]) [(2, 3)] 14 ∧
    update_csv_backlog (some (update_csv_backlog (some []) [(0, 5)] 14))
        [(0, 9)] 14 = [(0, 9)] :=
  ⟨(C3_merge_idempotent_newest_wins [(0, 1)] [(2, 3)] 14 (by decide)).1,
   (C3_merge_idempotent_newest_wins [(0, 1)] [(2, 3)] 14 (by decide)).2 5 9⟩

/-! ### Freshness evaluation and the sync cycle (standalone/update_data.py) -/

/-- `config.DAYS_BACKLOG` -/
def DAYS_BACKLOG : Int := 14

/-- `config.FRESHNESS_HOURS` -/
def FRESHNESS_HOURS : Int := 12

/-- `config.DAILY_GUARD_HOURS` -/
def DAILY_GUARD_HOURS : Int := 20

/-- State of a source's CSV file as `get_csv_time_window_and_freshness` sees
it: absent, present but unparseable (`pd.read_csv` raises, caught by the
`except` branch), or parsed into a list of timestamps (minutes UTC). -/
inductive CsvState
  | missing
  | corrupt
  | parsed (rows : List Int)
deriving DecidableEq, Repr

/-- `datetime.now(utc).replace(minute=0, second=0, microsecond=0)`: floor a
time in minutes to the hour. -/
def floorHour (t : Int) : Int := t - t % 60

/-- Result quadruple of `get_csv_time_window_and_freshness`. -/
structure WindowInfo where
  start : Int
  stop : Int
  isFresh : Bool
  isDailyGuard : Bool
deriving DecidableEq, Repr

/-- `update_data.get_csv_time_window_and_freshness` (lines 28-49).
`now` is the wall clock in minutes; `end` is `now` floored to the hour.
The freshness test compares against the floored `end`, while the daily-guard
test compares against the unfloored `now` (`datetime.now(latest.tz)`); the
gap start `latest + 15min` is only installed when the store is not guarded
and the gap is smaller than `days_backlog`.  A missing file, an unparseable
file (warned and swallowed) and an empty frame all fall through to the
default full-backlog window with both flags false. -/
def get_csv_time_window_and_freshness (csv : CsvState) (now : Int)
    (daysBacklog freshnessHours : Int) : WindowInfo :=
  let e := floorHour now
  let defaultStart := e - daysBacklog * 1440
  match csv with
  | .missing => ⟨defaultStart, e, false, false⟩
  | .corrupt => ⟨defaultStart, e, false, false⟩
  | .parsed rows =>
    match listMax rows with
    | none => ⟨defaultStart, e, false, false⟩
    | some latest =>
      let isFresh := decide (e - latest < freshnessHours * 60)
      if now - latest < DAILY_GUARD_HOURS * 60 then
        ⟨defaultStart, e, isFresh, true⟩
      else if e - latest < daysBacklog * 1440 then
        ⟨latest + 15, e, isFresh, false⟩
      else
        ⟨defaultStart, e, isFresh, false⟩

/-- The per-source outcome of `run_update_once`'s branch on the quadruple. -/
inductive Decision
  | skipGuarded
  | skipFresh
  | fetch (start stop : Int)
deriving DecidableEq, Repr

/-- `run_update_once`'s decision for one source (lines 57-80, identical for
prices, Fingrid and weather): guard first, then freshness, else spawn the
fetch script with the window. -/
def sourceDecision (csv : CsvState) (now : Int) : Decision :=
  let w := get_csv_time_window_and_freshness csv now DAYS_BACKLOG FRESHNESS_HOURS
  if w.isDailyGuard then .skipGuarded
  else if w.isFresh then .skipFresh
  else .fetch w.start w.stop

/-- C5 counterexample: a store whose latest record is 15 days old (gap ≥ 20h,
so the claim demands `Fetch(start = latest + 15min)`) is fetched with the
full backlog window instead, because the `latest + 15min` start is installed
only when the gap is below `days_backlog`.
`now = 86400` (a whole hour), `latest = 64800`, gap = 21600 min = 15 days. -/
theorem C5_cex_gap_fetch_full_backlog :
    sourceDecision (.parsed [64800]) 86400 = .fetch 66240 86400 ∧
    (66240 : Int) ≠ 64800 + 15 := by
  constructor
  · decide
  · decide

/-- C5 (amended): with a parseable non-empty store of maximum timestamp
`latest` and `e = now` floored to the hour: the guard compares the unfloored
`now` (so `now − latest < 20h` skips; in particular any store with
`e − latest ≤ 19h`, e.g. a 15-hour-old store, is guard-skipped, freshness
never being consulted); once `now − latest ≥ 20h` a fetch is always
triggered with window end `e`, and its start is `latest + 15min` exactly
when `e − latest < days_backlog` (14 days) — for larger gaps the full
backlog start `e − 14 days` is used. -/
theorem gcsv_parsed_eq (rows : List Int) (now db fh : Int) :
    get_csv_time_window_and_freshness (.parsed rows) now db fh =
      (match listMax rows with
       | none => ⟨floorHour now - db * 1440, floorHour now, false, false⟩
       | some lat =>
         if now - lat < DAILY_GUARD_HOURS * 60 then
           ⟨floorHour now - db * 1440, floorHour now,
             decide (floorHour now - lat < fh * 60), true⟩
         else if floorHour now - lat < db * 1440 then
           ⟨lat + 15, floorHour now, decide (floorHour now - lat < fh * 60), false⟩
         else
           ⟨floorHour now - db * 1440, floorHour now,
             decide (floorHour now - lat < fh * 60), false⟩) := rfl

theorem gcsv_some (rows : List Int) (now db fh latest : Int)
    (hmax : listMax rows = some latest) :
    get_csv_time_window_and_freshness (.parsed rows) now db fh =
      if now - latest < DAILY_GUARD_HOURS * 60 then
        ⟨floorHour now - db * 1440, floorHour now,
          decide (floorHour now - latest < fh * 60), true⟩
      else if floorHour now - latest < db * 1440 then
        ⟨latest + 15, floorHour now, decide (floorHour now - latest < fh * 60), false⟩
      else
        ⟨floorHour now - db * 1440, floorHour now,
          decide (floorHour now - latest < fh * 60), false⟩ := by
  rw [gcsv_parsed_eq, hmax]

/-- C5 (amended): with a parseable non-empty store of maximum timestamp
`latest` and `e = now` floored to the hour: the guard compares the unfloored
`now` (so `now − latest < 20h` skips; in particular any store with
`e − latest ≤ 19h`, e.g. a 15-hour-old store, is guard-skipped, freshness
never being consulted); once `now − latest ≥ 20h` a fetch is always
triggered with window end `e`, and its start is `latest + 15min` exactly
when `e − latest < days_backlog` (14 days) — for larger gaps the full
backlog start `e − 14 days` is used. -/
theorem C5_freshness_decision (rows : List Int) (now latest : Int)
    (hmax : listMax rows = some latest) :
    (now - latest < 1200 → sourceDecision (.parsed rows) now = .skipGuarded) ∧
    (floorHour now - latest ≤ 1140 →
      sourceDecision (.parsed rows) now = .skipGuarded) ∧
    (1200 ≤ now - latest → floorHour now - latest < 20160 →
      sourceDecision (.parsed rows) now = .fetch (latest + 15) (floorHour now)) ∧
    (1200 ≤ now - latest → 20160 ≤ floorHour now - latest →
      sourceDecision (.parsed rows) now
        = .fetch (floorHour now - 20160) (floorHour now)) := by
  have hmod1 : 0 ≤ now % 60 := Int.emod_nonneg now (by norm_num)
  have hmod2 : now % 60 < 60 := Int.emod_lt_of_pos now (by norm_num)
  have hfloor : floorHour now = now - now % 60 := rfl
  unfold sourceDecision
  rw [gcsv_some rows now DAYS_BACKLOG FRESHNESS_HOURS latest hmax]
  refine ⟨?_, ?_, ?_, ?_⟩
  · intro h1
    rw [if_pos (show now - latest < DAILY_GUARD_HOURS * 60 by
      simp only [DAILY_GUARD_HOURS]; omega)]
    rfl
  · intro h1
    rw [if_pos (show now - latest < DAILY_GUARD_HOURS * 60 by
      simp only [DAILY_GUARD_HOURS]; omega)]
    rfl
  · intro h1 h2
    rw [if_neg (show ¬ now - latest < DAILY_GUARD_HOURS * 60 by
        simp only [DAILY_GUARD_HOURS]; omega),
      if_pos (show floorHour now - latest < DAYS_BACKLOG * 1440 by
        simp only [DAYS_BACKLOG]; omega)]
    have hnf : ¬ (floorHour now - latest < FRESHNESS_HOURS * 60) := by
      simp only [FRESHNESS_HOURS]
      omega
    simp [hnf]
  · intro h1 h2
    rw [if_neg (show ¬ now - latest < DAILY_GUARD_HOURS * 60 by
        simp only [DAILY_GUARD_HOURS]; omega),
      if_neg (show ¬ floorHour now - latest < DAYS_BACKLOG * 1440 by
        simp only [DAYS_BACKLOG]; omega)]
    have hnf : ¬ (floorHour now - latest < FRESHNESS_HOURS * 60) := by
      simp only [FRESHNESS_HOURS]
      omega
    simp only [DAYS_BACKLOG]
    simp [hnf]

theorem C5_freshness_decision_witness :
    sourceDecision (.parsed [85000]) 86400 = .fetch (85000 + 15) (floorHour 86400) := by
  have h := (C5_freshness_decision [85000] 86400 85000 (by decide)).2.2.1
  exact h (by decide) (by decide)

/-- C8 counterexample: with an existing but unparseable CSV the `except`
branch merely warns, both flags stay false, and `run_update_once` proceeds
to spawn a fetch for the full backlog window — there is no fatal error and
the fetch is not suppressed.  (`now = 86400`, a whole hour.) -/
theorem C8_cex_corrupt_store_fetches :
    sourceDecision .corrupt 86400 = .fetch (86400 - 14 * 1440) 86400 := by
  decide

/-- C8 (amended): an existing-but-unparseable store is handled exactly like
a missing store: `get_csv_time_window_and_freshness` catches the parse
error, logs a warning, and returns the default full-backlog window with
`is_fresh = is_daily_guard = false`, so a full-backlog fetch proceeds for
that source; no `CorruptStoreError` (or any exception) is raised. -/
theorem C8_corrupt_store_treated_as_missing (now db fh : Int) :
    get_csv_time_window_and_freshness .corrupt now db fh
        = get_csv_time_window_and_freshness .missing now db fh ∧
    sourceDecision .corrupt now
        = .fetch (floorHour now - DAYS_BACKLOG * 1440) (floorHour now) := by
  constructor
  · rfl
  · rfl

/-- Per-source step of `run_update_once`: what happened for this source.
`fetchFail` means the spawned fetch script exited non-zero, in which case
`subprocess.check_call` raises `CalledProcessError`. -/
inductive StepOut
  | guarded
  | fresh
  | fetchOk
  | fetchFail
deriving DecidableEq, Repr

/-- One source of `run_update_once`: branch on the decision; on fetch, spawn
the script, whose success is abstracted by the `scriptOk` flag. -/
def processSource (csv : CsvState) (now : Int) (scriptOk : Bool) : StepOut :=
  match sourceDecision csv now with
  | .skipGuarded => .guarded
  | .skipFresh => .fresh
  | .fetch _ _ => if scriptOk then .fetchOk else .fetchFail

/-- `update_data.run_update_once` (lines 51-137): the sources
(prices, fingrid, weather) are processed strictly in sequence; an uncaught
`CalledProcessError` from `subprocess.check_call` aborts the function, so
sources after a failing fetch are never evaluated.  The result lists the
steps that actually ran. -/
def run_update_once : List (CsvState × Bool) → Int → List StepOut
  | [], _ => []
  | (csv, ok) :: rest, now =>
    let r := processSource csv now ok
    if r = .fetchFail then [r] else r :: run_update_once rest now

/-- Does a decision spawn a fetch script? -/
def isFetch : Decision → Bool
  | .fetch _ _ => true
  | _ => false

/-- C6 counterexample: three sources all needing a fetch; the second one's
fetch script fails (e.g. the Fingrid API key is missing, or the merge step
crashes on its CSV), `subprocess.check_call` raises, and the third source is
never evaluated: only two step outcomes exist for three sources. -/
theorem C6_cex_failure_blocks_later_sources :
    run_update_once [(.missing, true), (.missing, false), (.missing, true)] 86400
        = [.fetchOk, .fetchFail] ∧
    (run_update_once [(.missing, true), (.missing, false), (.missing, true)] 86400).length
        < ([(CsvState.missing, true), (.missing, false), (.missing, true)]).length := by
  constructor
  · decide
  · decide

/-- C6 (amended): skips never block later sources, and as long as every
spawned fetch script exits successfully (or a source is skipped, making its
script flag irrelevant) every source of the cycle is evaluated; but a
failing fetch script raises through `run_update_once` and the remaining
sources are not processed in that cycle. -/
theorem C6_sources_independent_unless_script_fails
    (sources : List (CsvState × Bool)) (now : Int)
    (h : ∀ s ∈ sources, s.2 = true ∨ isFetch (sourceDecision s.1 now) = false) :
    (run_update_once sources now).length = sources.length := by
  induction sources with
  | nil => rfl
  | cons s rest ih =>
    obtain ⟨csv, ok⟩ := s
    have hs := h (csv, ok) (List.mem_cons_self _ _)
    have hrest : ∀ s ∈ rest, s.2 = true ∨ isFetch (sourceDecision s.1 now) = false :=
      fun s hsmem => h s (List.mem_cons_of_mem _ hsmem)
    have hnofail : processSource csv now ok ≠ .fetchFail := by
      unfold processSource
      rcases hs with hok | hskip
      · simp only at hok
        subst hok
        cases sourceDecision csv now <;> simp
      · cases hd : sourceDecision csv now <;> simp_all [isFetch]
    rw [run_update_once, if_neg hnofail]
    simp [ih hrest]

theorem C6_sources_independent_unless_script_fails_witness :
    (run_update_once [(.missing, true), (.parsed [86000], false)] 86400).length
        = ([(CsvState.missing, true), (.parsed [86000], false)]).length :=
  C6_sources_independent_unless_script_fails
    [(.missing, true), (.parsed [86000], false)] 86400 (by decide)

/-! ### Fetch with retry (getPriceData.py, getWeatherData.py) -/

/-- Outcome of one HTTP attempt of the price fetcher: HTTP 200 with parsed
rows, HTTP 429 (throttled), or any other failure (non-2xx status, network
error, malformed payload) — all of which land in the `except` branch. -/
inductive PResp
  | ok (rows : List Row)
  | throttled
  | err
deriving Repr

/-- The retry loop of `getPriceData.fetch_price_data_window` (lines 29-54)
for one 1-day sub-window.  `resps` gives the outcome of each successive HTTP
attempt.  Returns (number of HTTP attempts made, backoff sleeps in seconds,
parsed batch).  The loop runs `while retry < 5`; on 429 it sleeps
`60 * 2^retry` seconds and retries; on success it breaks; on any other
failure it sleeps the same schedule only when `retry < 4`, then increments.
The `fuel` argument (5 at entry, matching `retry = 0`) makes the recursion
structural; the loop makes at most 5 iterations. -/
def priceDayLoop (resps : Nat → PResp) : Nat → Nat → Nat × List Nat × List Row
  | 0, retry => (retry, [], [])
  | fuel + 1, retry =>
    if retry < 5 then
      match resps retry with
      | .ok rows => (retry + 1, [], rows)
      | .throttled =>
        let r := priceDayLoop resps fuel (retry + 1)
        (r.1, 60 * 2 ^ retry :: r.2.1, r.2.2)
      | .err =>
        let r := priceDayLoop resps fuel (retry + 1)
        if retry < 4 then (r.1, 60 * 2 ^ retry :: r.2.1, r.2.2) else r
    else (retry, [], [])

/-- One sub-window (one day) of the price fetcher. -/
def fetch_price_day (resps : Nat → PResp) : Nat × List Nat × List Row :=
  priceDayLoop resps 5 0

/-- `getPriceData.fetch_price_data_window` over its day-by-day outer loop:
concatenated batch plus, per day, (attempt count, backoff sleeps). -/
def fetch_price_data_window : List (Nat → PResp) → List Row × List (Nat × List Nat)
  | [] => ([], [])
  | d :: rest =>
    let r := fetch_price_day d
    let w := fetch_price_data_window rest
    (r.2.2 ++ w.1, (r.1, r.2.1) :: w.2)

/-- Outcome of the single HTTP request for one weather chunk
(`getWeatherData.fetch_weather_data_window`, lines 28-82): a parsed batch;
an HTTP error status — including 429 — raised by `raise_for_status` inside
the `try` and caught; a parse failure, likewise caught; or an exception from
`requests.get` itself (line 42, outside the `try`), which propagates. -/
inductive WResp
  | ok (rows : List Row)
  | httpError
  | parseError
  | netError
deriving Repr

/-- The weather fetcher issues exactly one request per chunk — there is no
retry loop.  Per processed chunk it records (number of HTTP attempts, batch);
an uncaught network exception aborts the whole fetch (`Except.error`).
`resps` gives each chunk's would-be successive attempt outcomes; the code
only ever consumes attempt 0. -/
def fetch_weather_data_window : List (Nat → WResp) → Except Unit (List (Nat × List Row))
  | [] => .ok []
  | c :: rest =>
    match c 0 with
    | .netError => .error ()
    | .ok rows =>
      match fetch_weather_data_window rest with
      | .error e => .error e
      | .ok t => .ok ((1, rows) :: t)
    | .httpError =>
      match fetch_weather_data_window rest with
      | .error e => .error e
      | .ok t => .ok ((1, []) :: t)
    | .parseError =>
      match fetch_weather_data_window rest with
      | .error e => .error e
      | .ok t => .ok ((1, []) :: t)

/-- C7 counterexample: a weather chunk answered with HTTP 429 is *not*
retried: exactly one request is made, the chunk's batch degrades to empty
immediately, and the data that a second attempt would have returned
(`(0, 5)`) is lost — refuting "on a throttling response the sub-window is
retried … capped at 5 attempts" for the weather source. -/
theorem C7_cex_weather_throttle_not_retried :
    fetch_weather_data_window
        [fun k => if k = 0 then .httpError else .ok [(0, 5)]]
      = .ok [(1, [])] := by
  rfl

/-- C7 (amended): the price fetcher behaves as claimed — on 429 the
sub-window is retried as-is with backoff 60·2^k seconds doubling per
attempt, capped at 5 attempts in total (all-throttled schedule
[60,120,240,480,960]); a throttled first attempt followed by success yields
the successful batch on the second attempt; on any other failure it retries
up to 4 times with the same schedule minus the final sleep
([60,120,240,480]), after which the sub-window's batch is empty and the
next sub-window is still fetched.  The weather fetcher, however, has no
retry loop at all: every chunk gets exactly one request; an HTTP-status or
parse failure degrades that chunk to an empty batch and fetching proceeds,
while a network exception from `requests.get` aborts the whole window. -/
theorem C7_retry_schedules (s sOk sErr : Nat → PResp) (rows : List Row)
    (w : Nat → WResp) (wrest : List (Nat → WResp)) (t : List (Nat × List Row)) :
    ((∀ k, k < 5 → s k = .throttled) →
      fetch_price_day s = (5, [60, 120, 240, 480, 960], [])) ∧
    (sOk 0 = .throttled → sOk 1 = .ok rows →
      fetch_price_day sOk = (2, [60], rows)) ∧
    ((∀ k, k < 5 → sErr k = .err) →
      fetch_price_day sErr = (5, [60, 120, 240, 480], [])) ∧
    ((∀ k, k < 5 → sErr k = .err) → sOk 0 = .ok rows →
      fetch_price_data_window [sErr, sOk]
        = (rows, [(5, [60, 120, 240, 480]), (1, [])])) ∧
    (w 0 = .httpError →
      fetch_weather_data_window (w :: wrest)
        = match fetch_weather_data_window wrest with
          | .error e => .error e
          | .ok t' => .ok ((1, []) :: t')) ∧
    (w 0 = .netError → fetch_weather_data_window (w :: wrest) = .error ()) ∧
    (w 0 = .ok rows → fetch_weather_data_window wrest = .ok t →
      fetch_weather_data_window (w :: wrest) = .ok ((1, rows) :: t)) := by
  refine ⟨?_, ?_, ?_, ?_, ?_, ?_, ?_⟩
  · intro h
    simp [fetch_price_day, priceDayLoop, h 0, h 1, h 2, h 3, h 4]
  · intro h0 h1
    simp [fetch_price_day, priceDayLoop, h0, h1]
  · intro h
    simp [fetch_price_day, priceDayLoop, h 0, h 1, h 2, h 3, h 4]
  · intro h h0
    simp [fetch_price_data_window, fetch_price_day, priceDayLoop,
      h 0, h 1, h 2, h 3, h 4, h0]
  · intro h
    rw [fetch_weather_data_window, h]
  · intro h
    rw [fetch_weather_data_window, h]
  · intro h ht
    rw [fetch_weather_data_window, h, ht]

theorem C7_retry_schedules_witness :
    fetch_price_day (fun _ => .throttled) = (5, [60, 120, 240, 480, 960], []) ∧
    fetch_price_day (fun k => if k = 0 then .throttled else .ok [(0, 7)])
      = (2, [60], [(0, 7)]) ∧
    fetch_price_day (fun _ => .err) = (5, [60, 120, 240, 480], []) ∧
    fetch_price_data_window [fun _ => .err, fun _ => .ok [(0, 7)]]
      = ([(0, 7)], [(5, [60, 120, 240, 480]), (1, [])]) ∧
    fetch_weather_data_window [fun _ => .netError] = .error () ∧
    fetch_weather_data_window [fun _ => .ok [(0, 5)]] = .ok [(1, [(0, 5)])] := by
  have h := C7_retry_schedules (fun _ => .throttled)
    (fun k => if k = 0 then .throttled else .ok [(0, 7)]) (fun _ => .err)
    [(0, 7)] (fun _ => .netError) [] []
  have h2 := C7_retry_schedules (fun _ => .throttled)
    (fun _ => .ok [(0, 7)]) (fun _ => .err)
    [(0, 5)] (fun _ => .ok [(0, 5)]) [] []
  refine ⟨h.1 (fun k _ => rfl), h.2.1 rfl rfl, h.2.2.1 (fun k _ => rfl), ?_, ?_, ?_⟩
  · have := (C7_retry_schedules (fun _ => .throttled) (fun _ => .ok [(0, 7)])
      (fun _ => .err) [(0, 7)] (fun _ => .netError) [] []).2.2.2.1
    exact this (fun k _ => rfl) rfl
  · exact h.2.2.2.2.2.1 rfl
  · exact h2.2.2.2.2.2.2 rfl rfl

/-! ### Persisting the merged series (utils_data.py lines 58-60) -/

/-- A file system: association list from path to file content (a list of
CSV lines); later entries are shadowed by earlier ones. -/
abbrev Fs := List (Nat × List Nat)

/-- Content of path `p`, `none` when the file does not exist. -/
def fsGet (fs : Fs) (p : Nat) : Option (List Nat) :=
  (fs.find? (fun e => e.1 == p)).map Prod.snd

/-- Create or overwrite path `p` with content `c`. -/
def fsSet (fs : Fs) (p : Nat) (c : List Nat) : Fs := (p, c) :: fs

/-- File-system operations a persist step can issue. -/
inductive FsOp
  | write (path : Nat) (content : List Nat)
  | rename (src dst : Nat)

/-- Effect of a completed operation.  A `write` replaces the content; a
`rename` atomically installs the source's content at the destination. -/
def applyOp (fs : Fs) : FsOp → Fs
  | .write p c => fsSet fs p c
  | .rename src dst =>
    match fsGet fs src with
    | some c => fsSet fs dst c
    | none => fs

/-- File systems observable while one operation runs (including a crash in
its middle): a `write` streams its content, so every prefix of the new
content may be on disk at the target path; a `rename` is atomic: before or
after, nothing in between. -/
def midStates (fs : Fs) : FsOp → List Fs
  | .write p c => (List.range (c.length + 1)).map (fun k => fsSet fs p (c.take k))
  | .rename src dst => [fs, applyOp fs (.rename src dst)]

/-- All file systems observable while a sequence of operations runs
(crash at any point included), starting from `fs`. -/
def observableFs (fs : Fs) : List FsOp → List Fs
  | [] => [fs]
  | op :: rest => midStates fs op ++ observableFs (applyOp fs op) rest

/-- `update_csv_backlog`'s persist step (lines 58-60): after `mkdir`, a bare
`df_all.to_csv(csv_path)` — a single direct write to the destination path.
No temporary file and no rename are involved. -/
def persistOps (dest : Nat) (content : List Nat) : List FsOp :=
  [.write dest content]

/-- Modelled from the spec: the `persist(series, destination)` contract of
spec §4.1 — "write to a temporary location, then atomically replace the
destination".  This routine does not exist in the code; it is stated here
only to contrast with `persistOps`. -/
def persistOpsSpec (dest tmp : Nat) (content : List Nat) : List FsOp :=
  [.write tmp content, .rename tmp dest]

/-- C4 counterexample: persisting ["r1","r2"] (as 10, 20) over an old file
containing just one row (10) can leave the destination holding the
one-line prefix of the new content after a crash mid-write — a state that
is neither the old nor the new file, i.e. a half-written file is
observable.  (Destination is path 0.) -/
theorem C4_cex_persist_not_atomic :
    ∃ fs ∈ observableFs [(0, [10])] (persistOps 0 [10, 20]),
      fsGet fs 0 ≠ some [10] ∧ fsGet fs 0 ≠ some [10, 20] := by
  decide

/-- C4 (amended): the code persists by writing directly to the destination
CSV, so every prefix of the new content — including the empty truncated
file — is observable at the destination during the write; a crash mid-write
therefore corrupts the previously persisted state.  The write-temp-then-
rename discipline described by the spec (modelled as `persistOpsSpec`)
would make only the old or the complete new content observable. -/
theorem C4_persist_direct_write (dest tmp : Nat) (old new : List Nat)
    (hne : tmp ≠ dest) :
    (∀ k, k ≤ new.length →
      ∃ fs ∈ observableFs [(dest, old)] (persistOps dest new),
        fsGet fs dest = some (new.take k)) ∧
    (∀ fs ∈ observableFs [(dest, old)] (persistOpsSpec dest tmp new),
      fsGet fs dest = some old ∨ fsGet fs dest = some new) := by
  constructor
  · intro k hk
    refine ⟨fsSet [(dest, old)] dest (new.take k), ?_, ?_⟩
    · unfold persistOps observableFs midStates
      refine List.mem_append_left _ (List.mem_map.mpr ⟨k, ?_, rfl⟩)
      exact List.mem_range.mpr (by omega)
    · simp [fsGet, fsSet, List.find?]
  · intro fs hfs
    have hbe : (tmp == dest) = false := by
      simp [hne]
    unfold persistOpsSpec observableFs at hfs
    simp only [List.mem_append] at hfs
    have hget : fsGet (fsSet [(dest, old)] tmp new) tmp = some new := by
      simp [fsGet, fsSet, List.find?]
    rcases hfs with hfs | hfs
    · -- mid-states of the temporary-file write: dest still holds old
      left
      unfold midStates at hfs
      simp only [List.mem_map, List.mem_range] at hfs
      obtain ⟨k, _, rfl⟩ := hfs
      simp [fsGet, fsSet, List.find?, hbe]
    · have hcases : fs = applyOp [(dest, old)] (FsOp.write tmp new) ∨
          fs = applyOp (applyOp [(dest, old)] (FsOp.write tmp new))
            (FsOp.rename tmp dest) := by
        simp only [observableFs, midStates, List.mem_append, List.mem_cons,
          List.not_mem_nil, or_false] at hfs
        tauto
      rcases hcases with rfl | rfl
      · left
        simp [applyOp, fsGet, fsSet, List.find?, hbe]
      · right
        simp only [applyOp]
        rw [hget]
        simp [fsGet, fsSet, List.find?]

theorem C4_persist_direct_write_witness :
    ∃ fs ∈ observableFs [(0, [10])] (persistOps 0 [10, 20]),
      fsGet fs 0 = some ([10, 20].take 1) :=
  (C4_persist_direct_write 0 1 [10] [10, 20] (by decide)).1 1 (by decide)

/-! ### Feature construction (standalone/features.py) -/

/-- A column of the 15-minute-grid table `df_full`, indexed by tick:
`none` is a missing value (NaN). -/
abbrev Col := List (Option ℚ)

/-- Value of column `c` at tick `t` (`none` beyond the end of the table). -/
def colObs (c : Col) (t : Nat) : Option ℚ := c.getD t none

/-- `series.shift(k)` on the grid: the value at tick `t` is the value at
tick `t - k`, `NaN` for the first `k` ticks; the column keeps its length. -/
def pandasShift (k : Nat) (c : Col) : Col :=
  (List.range c.length).map (fun i => if i < k then none else c.getD (i - k) none)

/-- `series.rolling(w).mean()` at one tick: the mean of the `w` values ending
at tick `i`; `NaN` when fewer than `w` ticks precede or any value in the
window is missing (pandas' default `min_periods = w`). -/
def rollMeanAt (w : Nat) (c : Col) (i : Nat) : Option ℚ :=
  let vals := (List.range w).map (fun j => c.getD (i + 1 - w + j) none)
  if w ≤ i + 1 ∧ vals.all (fun v => v.isSome) then
    some ((vals.map (fun v => v.getD 0)).sum / (w : ℚ))
  else none

/-- `series.rolling(w).mean()` as a column. -/
def pandasRollMean (w : Nat) (c : Col) : Col :=
  (List.range c.length).map (rollMeanAt w c)

/-- `df_full["target_price_1h_ahead"] =
df_full["price_ct_per_kwh"].rolling(4).mean().shift(-4)` (features.py line
95): the backward 4-tick rolling mean shifted four ticks into the future. -/
def target_price_1h_ahead (price : Col) : Col :=
  (List.range price.length).map
    (fun t => if t + 4 < price.length then rollMeanAt 4 price (t + 4) else none)

theorem getD_map_range {β : Type} [Inhabited β] (n t : Nat) (f : Nat → β) (d : β) :
    ((List.range n).map f).getD t d = if t < n then f t else d := by
  by_cases h : t < n
  · rw [if_pos h]
    rw [List.getD_eq_getElem?_getD]
    rw [List.getElem?_map]
    rw [List.getElem?_range h]
    rfl
  · rw [if_neg h]
    apply List.getD_eq_default
    simpa using h

theorem getD_take {α : Type} (l : List α) (n i : Nat) (d : α) (h : i < n) :
    (l.take n).getD i d = l.getD i d := by
  rw [List.getD_eq_getElem?_getD, List.getD_eq_getElem?_getD,
    List.getElem?_take, if_pos h]

theorem getD_drop {α : Type} (l : List α) (n i : Nat) (d : α) :
    (l.drop n).getD i d = l.getD (n + i) d := by
  rw [List.getD_eq_getElem?_getD, List.getD_eq_getElem?_getD, List.getElem?_drop]

theorem obs_pandasShift (k : Nat) (c : Col) (t : Nat) :
    colObs (pandasShift k c) t =
      if t < c.length then (if t < k then none else colObs c (t - k)) else none := by
  unfold colObs pandasShift
  rw [getD_map_range]

theorem obs_pandasRollMean (w : Nat) (c : Col) (t : Nat) :
    colObs (pandasRollMean w c) t =
      if t < c.length then rollMeanAt w c t else none := by
  unfold colObs pandasRollMean
  rw [getD_map_range]

theorem obs_target (c : Col) (t : Nat) :
    colObs (target_price_1h_ahead c) t =
      if t < c.length then
        (if t + 4 < c.length then rollMeanAt 4 c (t + 4) else none)
      else none := by
  unfold colObs target_price_1h_ahead
  rw [getD_map_range]

/-- C9: lag columns (`shift(k)`, features.py lines 74-82) and rolling means
(`rolling(w).mean()`, lines 90-92) at tick `t` are determined by the table's
rows up to tick `t`: two tables agreeing on rows `0..t` agree on every such
feature at `t`.  Only the target (`rolling(4).mean().shift(-4)`, line 95)
reads ahead: it is determined by rows `t+1..t+4`, and when those four ticks
all carry values it equals their mean. -/
theorem C9_no_lookahead (c c' : Col) (t : Nat) :
    (c.take (t + 1) = c'.take (t + 1) →
      (∀ k, colObs (pandasShift k c) t = colObs (pandasShift k c') t) ∧
      (∀ w, 1 ≤ w →
        colObs (pandasRollMean w c) t = colObs (pandasRollMean w c') t)) ∧
    ((c.drop (t + 1)).take 4 = (c'.drop (t + 1)).take 4 →
      colObs (target_price_1h_ahead c) t
        = colObs (target_price_1h_ahead c') t) ∧
    (∀ v1 v2 v3 v4 : ℚ,
      colObs c (t + 1) = some v1 → colObs c (t + 2) = some v2 →
      colObs c (t + 3) = some v3 → colObs c (t + 4) = some v4 →
      colObs (target_price_1h_ahead c) t = some ((v1 + v2 + v3 + v4) / 4)) := by
  refine ⟨?_, ?_, ?_⟩
  · intro htake
    have hlen : min (t + 1) c.length = min (t + 1) c'.length := by
      have := congrArg List.length htake
      simpa [List.length_take] using this
    have hio : t < c.length ↔ t < c'.length := by omega
    have hval : ∀ i, i ≤ t → c.getD i none = c'.getD i none := by
      intro i hi
      rw [← getD_take c (t + 1) i none (by omega),
        ← getD_take c' (t + 1) i none (by omega), htake]
    constructor
    · intro k
      rw [obs_pandasShift, obs_pandasShift]
      by_cases h : t < c.length
      · rw [if_pos h, if_pos (hio.mp h)]
        by_cases hk : t < k
        · rw [if_pos hk, if_pos hk]
        · rw [if_neg hk, if_neg hk]
          exact hval (t - k) (by omega)
      · rw [if_neg h, if_neg (fun hh => h (hio.mpr hh))]
    · intro w hw
      rw [obs_pandasRollMean, obs_pandasRollMean]
      by_cases h : t < c.length
      · rw [if_pos h, if_pos (hio.mp h)]
        unfold rollMeanAt
        by_cases hwt : w ≤ t + 1
        · have hvals : (List.range w).map (fun j => c.getD (t + 1 - w + j) none)
              = (List.range w).map (fun j => c'.getD (t + 1 - w + j) none) := by
            refine List.map_congr_left fun j hj => ?_
            have hjw := List.mem_range.mp hj
            exact hval _ (by omega)
          rw [hvals]
        · rw [if_neg (fun hc => hwt hc.1), if_neg (fun hc => hwt hc.1)]
      · rw [if_neg h, if_neg (fun hh => h (hio.mpr hh))]
  · intro hdt
    have hlen4 : min 4 (c.length - (t + 1)) = min 4 (c'.length - (t + 1)) := by
      have := congrArg List.length hdt
      simpa [List.length_take, List.length_drop] using this
    have hv4 : ∀ j, j < 4 → c.getD (t + 1 + j) none = c'.getD (t + 1 + j) none := by
      intro j hj
      have h1 := getD_take (c.drop (t + 1)) 4 j none hj
      have h2 := getD_take (c'.drop (t + 1)) 4 j none hj
      rw [getD_drop] at h1 h2
      rw [← h1, ← h2, hdt]
    rw [obs_target, obs_target]
    by_cases h4 : t + 4 < c.length
    · have h4' : t + 4 < c'.length := by omega
      rw [if_pos (show t < c.length from by omega), if_pos h4,
        if_pos (show t < c'.length from by omega), if_pos h4']
      unfold rollMeanAt
      have hvals : (List.range 4).map (fun j => c.getD (t + 4 + 1 - 4 + j) none)
          = (List.range 4).map (fun j => c'.getD (t + 4 + 1 - 4 + j) none) := by
        refine List.map_congr_left fun j hj => ?_
        have hjw := List.mem_range.mp hj
        have hidx : t + 4 + 1 - 4 + j = t + 1 + j := by omega
        rw [hidx]
        exact hv4 j hjw
      rw [hvals]
    · have h4' : ¬ t + 4 < c'.length := by omega
      have hL : (if t < c.length then
          (if t + 4 < c.length then rollMeanAt 4 c (t + 4) else none)
          else none) = none := by
        by_cases ht : t < c.length
        · rw [if_pos ht, if_neg h4]
        · rw [if_neg ht]
      have hR : (if t < c'.length then
          (if t + 4 < c'.length then rollMeanAt 4 c' (t + 4) else none)
          else none) = none := by
        by_cases ht : t < c'.length
        · rw [if_pos ht, if_neg h4']
        · rw [if_neg ht]
      rw [hL, hR]
  · intro v1 v2 v3 v4 h1 h2 h3 h4
    unfold colObs at h1 h2 h3 h4
    have hlen : t + 4 < c.length := by
      by_contra hc
      rw [List.getD_eq_default _ _ (by omega)] at h4
      cases h4
    rw [obs_target, if_pos (by omega), if_pos hlen]
    unfold rollMeanAt
    have e0 : t + 4 + 1 - 4 + 0 = t + 1 := by omega
    have e1 : t + 4 + 1 - 4 + 1 = t + 2 := by omega
    have e2 : t + 4 + 1 - 4 + 2 = t + 3 := by omega
    have e3 : t + 4 + 1 - 4 + 3 = t + 4 := by omega
    have hvals : (List.range 4).map (fun j => c.getD (t + 4 + 1 - 4 + j) none)
        = [some v1, some v2, some v3, some v4] := by
      show [c.getD (t + 4 + 1 - 4 + 0) none, c.getD (t + 4 + 1 - 4 + 1) none,
        c.getD (t + 4 + 1 - 4 + 2) none, c.getD (t + 4 + 1 - 4 + 3) none]
        = [some v1, some v2, some v3, some v4]
      rw [e0, e1, e2, e3, h1, h2, h3, h4]
    rw [hvals]
    rw [if_pos (show (4 ≤ t + 4 + 1 ∧
      (([some v1, some v2, some v3, some v4]).all fun v => v.isSome) = true)
      from ⟨by omega, rfl⟩)]
    simp only [List.map_cons, List.map_nil, Option.getD_some, List.sum_cons,
      List.sum_nil]
    congr 1
    push_cast
    ring

theorem C9_no_lookahead_witness :
    colObs (pandasShift 1 [some (1 : ℚ), some 2, some 3, some 4, some 5]) 0
      = colObs (pandasShift 1 [some (1 : ℚ), none, some 7]) 0 ∧
    colObs (pandasRollMean 4 [some (1 : ℚ), some 2, some 3, some 4, some 5]) 0
      = colObs (pandasRollMean 4 [some (1 : ℚ), none, some 7]) 0 ∧
    colObs (target_price_1h_ahead [some (1 : ℚ), some 2, some 3, some 4, some 5]) 0
      = colObs (target_price_1h_ahead [some (1 : ℚ), some 2, some 3, some 4, some 5]) 0 ∧
    colObs (target_price_1h_ahead [some (1 : ℚ), some 2, some 3, some 4, some 5]) 0
      = some ((2 + 3 + 4 + 5) / 4) := by
  refine ⟨?_, ?_, ?_, ?_⟩
  · exact ((C9_no_lookahead [some (1 : ℚ), some 2, some 3, some 4, some 5]
      [some (1 : ℚ), none, some 7] 0).1 (by rfl)).1 1
  · exact ((C9_no_lookahead [some (1 : ℚ), some 2, some 3, some 4, some 5]
      [some (1 : ℚ), none, some 7] 0).1 (by rfl)).2 4 (by norm_num)
  · exact (C9_no_lookahead [some (1 : ℚ), some 2, some 3, some 4, some 5]
      [some (1 : ℚ), some 2, some 3, some 4, some 5] 0).2.1 (by rfl)
  · exact (C9_no_lookahead [some (1 : ℚ), some 2, some 3, some 4, some 5]
      [some (1 : ℚ), some 2, some 3, some 4, some 5] 0).2.2 2 3 4 5 rfl rfl rfl rfl

/-- A row of `df_model` as `build_next_24_features_from_df_model` sees it:
the feature-column values and the `target_price_1h_ahead` value, each
possibly missing.  (The function first checks that the target column exists;
frames lacking it raise immediately and are not modelled here.) -/
structure FRow where
  feats : List (Option ℚ)
  target : Option ℚ
deriving DecidableEq, Repr

/-- `row.dropna()` survival: every column — features *and* target — present. -/
def rowComplete (r : FRow) : Bool :=
  r.feats.all (fun v => v.isSome) && r.target.isSome

/-- Completeness in the feature columns only (what the claim asks for). -/
def featComplete (r : FRow) : Bool := r.feats.all (fun v => v.isSome)

/-- `features.build_next_24_features_from_df_model` (lines 102-112):
`df_clean = df_model.dropna()` (all columns, target included), then
`X = df_clean.drop(columns=["target_price_1h_ahead"])`; raises
`ValueError` when fewer than 24 rows remain, else returns `X.tail(24)`. -/
def build_next_24_features_from_df_model (df : List FRow) :
    Except String (List (List (Option ℚ))) :=
  let clean := df.filter rowComplete
  let X := clean.map FRow.feats
  if X.length < 24 then
    .error "Need at least 24 rows to build next-24 features"
  else
    .ok (X.drop (X.length - 24))

/-- C10 counterexample: 24 rows all complete in every feature column but
with a missing target are *all* discarded by `dropna()`, so extraction
raises even though 24 feature-complete rows exist — refuting "no target
value required" and "fails exactly when fewer than 24 complete rows exist". -/
theorem C10_cex_target_required :
    (((List.replicate 24 (⟨[some 1], none⟩ : FRow))).filter featComplete).length
        = 24 ∧
    (build_next_24_features_from_df_model
        (List.replicate 24 (⟨[some 1], none⟩ : FRow))).isOk = false := by
  constructor
  · decide
  · decide

/-- C10 (amended): extraction keeps only rows complete in *every* column,
the forward-looking target included; it fails exactly when fewer than 24
such fully-complete rows exist, and otherwise returns the feature parts
(target column dropped) of the last 24 of them. -/
theorem C10_last24_complete_rows (df : List FRow) :
    ((df.filter rowComplete).length < 24 →
      (build_next_24_features_from_df_model df).isOk = false) ∧
    (24 ≤ (df.filter rowComplete).length →
      build_next_24_features_from_df_model df
          = .ok (((df.filter rowComplete).map FRow.feats).drop
              ((df.filter rowComplete).length - 24)) ∧
      ∀ X, build_next_24_features_from_df_model df = .ok X → X.length = 24) := by
  constructor
  · intro h
    unfold build_next_24_features_from_df_model
    rw [if_pos (by simpa using h)]
    rfl
  · intro h
    have hnot : ¬ ((df.filter rowComplete).map FRow.feats).length < 24 := by
      simpa using h
    constructor
    · unfold build_next_24_features_from_df_model
      rw [if_neg hnot]
      simp
    · intro X hX
      unfold build_next_24_features_from_df_model at hX
      rw [if_neg hnot] at hX
      simp only [Except.ok.injEq] at hX
      subst hX
      rw [List.length_drop]
      simp only [List.length_map] at hnot ⊢
      omega

theorem C10_last24_complete_rows_witness :
    build_next_24_features_from_df_model
        (List.replicate 24 (⟨[some 1], some 2⟩ : FRow))
      = .ok ((((List.replicate 24 (⟨[some 1], some 2⟩ : FRow)).filter
          rowComplete).map FRow.feats).drop
          (((List.replicate 24 (⟨[some 1], some 2⟩ : FRow)).filter
            rowComplete).length - 24)) ∧
    (build_next_24_features_from_df_model
        (List.replicate 8 (⟨[some 1], none⟩ : FRow))).isOk = false :=
  ⟨((C10_last24_complete_rows (List.replicate 24 ⟨[some 1], some 2⟩)).2
      (by decide)).1,
   (C10_last24_complete_rows (List.replicate 8 ⟨[some 1], none⟩)).1 (by decide)⟩
